import Mathlib

/-!
# Verification of the `parser_tools` statement-extraction engine

Shallow embedding of `src/parse_statements.cpp` and the record types of
`src/include/parse_statements.hpp` and `src/include/parse_where.hpp`.

The SQL lexer/grammar/parser is an external collaborator (DuckDB's
`Parser` class): the code only calls `parser.ParseQuery(sql)` (which
either fills `parser.statements` or throws a `ParserException`) and
`stmt->ToString()` (the canonical re-serialization of one parsed
statement).  We therefore model the collaborator as an abstract value of
type `Parser`: a function from SQL text to either a `ParserException` or
the list of parsed statement trees (entries may be null, mirroring the
`unique_ptr` entries of `parser.statements`).  A parsed statement tree is
represented by the one capability the code uses: its canonical
re-serialization.
-/

namespace ParserTools

/-- A parsed statement tree, as handed over by the external parser
collaborator.  The extraction code uses exactly one capability of it:
`stmt->ToString()`, its canonical re-serialization. -/
structure ParsedStatement where
  ToString : String
deriving DecidableEq, Repr

/-- The exception thrown by the external parser on a syntax error
(`duckdb::ParserException`). -/
structure ParserException where
  message : String
deriving DecidableEq, Repr

/-- The external parser collaborator (`duckdb::Parser`).  `parseQuery sql`
models `parser.ParseQuery(sql)` followed by reading `parser.statements`:
it either throws (`Except.error`) or yields the ordered list of top-level
statement entries, each possibly null (`Option`). -/
structure Parser where
  parseQuery : String → Except ParserException (List (Option ParsedStatement))

/-- `StatementResult` from `src/include/parse_statements.hpp`:
`{ statement: text }`. -/
structure StatementResult where
  statement : String
deriving DecidableEq, Repr

/-- `WhereConditionResult` from `src/include/parse_where.hpp`: all three
fields are plain `std::string`, including `table_name` ("the table this
condition applies to (if determinable)"). -/
structure WhereConditionResult where
  condition : String
  table_name : String
  context : String
deriving DecidableEq, Repr

/-- `DetailedWhereConditionResult` from `src/include/parse_where.hpp`:
all five fields are plain `std::string`, including `table_name`. -/
structure DetailedWhereConditionResult where
  column_name : String
  operator_type : String
  value : String
  table_name : String
  context : String
deriving DecidableEq, Repr

/-- Modelled from the spec: `src/` contains no `parse_where.cpp` (only its
header and registration calls), so the construction of a coarse predicate
record whose table attribution is ambiguous is modelled from the spec,
which says "otherwise leave it empty" / "otherwise empty" — together with
the header, where `table_name` is a plain `std::string`, the record for an
unattributable predicate carries the empty string in `table_name`. -/
def unattributableWhereResult (condition context : String) : WhereConditionResult :=
  { condition := condition, table_name := "", context := context }

/-- Modelled from the spec: the detailed counterpart of
`unattributableWhereResult`, for the same reason (no `parse_where.cpp`
under `src/`; the header declares `table_name` as a plain `std::string`
and the spec says an unattributable predicate leaves it empty). -/
def unattributableDetailedWhereResult (column_name operator_type value context : String) :
    DetailedWhereConditionResult :=
  { column_name := column_name, operator_type := operator_type, value := value,
    table_name := "", context := context }

/-- `ExtractStatementsFromSQL` (`src/parse_statements.cpp`, lines 43-60):
parse `sql`; on a `ParserException` return with `results` untouched;
otherwise, for each statement entry in order, if it is non-null append
`StatementResult{stmt->ToString()}` to `results`. -/
def ExtractStatementsFromSQL (P : Parser) (sql : String)
    (results : List StatementResult) : List StatementResult :=
  match P.parseQuery sql with
  | Except.error _ => results
  | Except.ok stmts =>
      results ++ stmts.filterMap (fun s => s.map (fun st => StatementResult.mk st.ToString))

/-- `ParseStatementsState` (`src/parse_statements.cpp`, lines 9-12): the
global state of one logical request of the table function, default
initialized to `row = 0` and an empty `results` vector. -/
structure ParseStatementsState where
  row : Nat
  results : List StatementResult
deriving DecidableEq, Repr

/-- The freshly initialized state produced by `ParseStatementsInit`. -/
def initState : ParseStatementsState := { row := 0, results := [] }

/-- The guard of the lazy-extraction branch in `ParseStatementsFunction`:
`state.results.empty() && state.row == 0`. -/
def extractionTriggered (s : ParseStatementsState) : Bool :=
  s.results.isEmpty && s.row == 0

/-- One pull of the table function `ParseStatementsFunction`
(`src/parse_statements.cpp`, lines 62-81): possibly run extraction
(guarded by `extractionTriggered`), then either emit no row (`none`,
cardinality 0) when `row >= results.size()`, or emit
`results[row].statement` and increment `row`. -/
def ParseStatementsFunction (P : Parser) (sql : String) (state : ParseStatementsState) :
    ParseStatementsState × Option String :=
  let s1 :=
    if extractionTriggered state then
      { state with results := ExtractStatementsFromSQL P sql state.results }
    else state
  if h : s1.row < s1.results.length then
    ({ s1 with row := s1.row + 1 }, some (s1.results.get ⟨s1.row, h⟩).statement)
  else
    (s1, none)

/-- Run `n` successive pulls of one logical request of the table function,
collecting the emitted rows in order and counting how many pulls took the
extraction branch (`extractionTriggered`).  Returns
(final state, emitted rows, number of extractions performed). -/
def runPulls (P : Parser) (sql : String) :
    Nat → ParseStatementsState → ParseStatementsState × List String × Nat
  | 0, s => (s, [], 0)
  | n + 1, s =>
      let tick : Nat := if extractionTriggered s then 1 else 0
      let step := ParseStatementsFunction P sql s
      let rest := runPulls P sql n step.1
      (rest.1, step.2.toList ++ rest.2.1, tick + rest.2.2)

/-- `list_entry_t`: the (offset, length) descriptor a list-returning
scalar function writes for one row. -/
structure ListEntry where
  offset : Nat
  length : Nat
deriving DecidableEq, Repr

/-- One row of `ParseStatementsScalarFunction`
(`src/parse_statements.cpp`, lines 85-110): extract the statements of
`query` into a fresh vector, append their texts to the shared child
vector `child`, and return the new child vector together with
`list_entry_t(current_size, number_of_statements)`. -/
def ParseStatementsScalarRow (P : Parser) (child : List String) (query : String) :
    List String × ListEntry :=
  let parsed := ExtractStatementsFromSQL P query []
  let current_size := child.length
  (child ++ parsed.map (fun r => r.statement),
   { offset := current_size, length := parsed.length })

/-- The list value a consumer reads back for one row of the scalar
`parse_statements` function: the slice of the child vector described by
the row's `list_entry_t`. -/
def scalarRowList (P : Parser) (child : List String) (query : String) : List String :=
  let r := ParseStatementsScalarRow P child query
  (r.1.drop r.2.offset).take r.2.length

/-- Processing one row inside `UnaryExecutor::Execute` of the scalar
`parse_statements`: thread the shared child vector and append the row's
`list_entry_t`. -/
def scalarStep (P : Parser) (acc : List String × List ListEntry) (q : String) :
    List String × List ListEntry :=
  let r := ParseStatementsScalarRow P acc.1 q
  (r.1, acc.2 ++ [r.2])

/-- `ParseStatementsScalarFunction` over a whole batch of input rows
(`UnaryExecutor::Execute` runs the lambda once per row, in order, against
the shared result vector): returns the final child vector and the
`list_entry_t` of every row. -/
def ParseStatementsScalarFunction (P : Parser) (queries : List String) :
    List String × List ListEntry :=
  queries.foldl (scalarStep P) ([], [])

/-- `NumStatementsScalarFunction` for one row
(`src/parse_statements.cpp`, lines 114-124): extract the statements of
`query` into a fresh vector and return its size as an `int64_t`. -/
def NumStatementsScalarRow (P : Parser) (query : String) : Int :=
  Int.ofNat (ExtractStatementsFromSQL P query []).length

/-- The statement texts extracted from one query (used to state batch
properties of the scalar function). -/
def stmtsOf (P : Parser) (q : String) : List String :=
  (ExtractStatementsFromSQL P q []).map (fun r => r.statement)

/-- The `list_entry_t` descriptors the scalar batch writes, in closed
form: row `i` gets offset `base + (total length of the earlier rows)` and
the length of its own statement list. -/
def scalarEntriesFrom (P : Parser) : Nat → List String → List ListEntry
  | _, [] => []
  | base, q :: qs =>
      ListEntry.mk base (stmtsOf P q).length ::
        scalarEntriesFrom P (base + (stmtsOf P q).length) qs

/-- A parsed statement `st` is produced by parser `P` when some input
parses successfully to a list containing it. -/
def ProducedBy (P : Parser) (st : ParsedStatement) : Prop :=
  ∃ sql ss, P.parseQuery sql = Except.ok ss ∧ some st ∈ ss

/-- The documented guarantee of the external parser collaborator: the
canonical re-serialization of any statement it produced re-parses
successfully to exactly one (non-null) statement. -/
def CanonicalReparse (P : Parser) : Prop :=
  ∀ st : ParsedStatement, ProducedBy P st →
    ∃ l, P.parseQuery st.ToString = Except.ok l ∧ (l.filterMap id).length = 1

/-- A parser that rejects every input with a syntax error, as DuckDB's
parser does on `"SELEC * FRM;"`. -/
def errParser : Parser :=
  { parseQuery := fun _ => Except.error (ParserException.mk "syntax error") }

/-- A parser that accepts `"SELECT 1; SELECT 2;"` as two statements with
canonical forms `"SELECT 1;"` and `"SELECT 2;"`, and rejects everything
else. -/
def twoStmtParser : Parser :=
  { parseQuery := fun sql =>
      if sql = "SELECT 1; SELECT 2;" then
        Except.ok [some (ParsedStatement.mk "SELECT 1;"), some (ParsedStatement.mk "SELECT 2;")]
      else Except.error (ParserException.mk "syntax error") }

/-- A parser that accepts every input as a single statement whose
canonical form is the input itself. -/
def echoParser : Parser :=
  { parseQuery := fun sql => Except.ok [some (ParsedStatement.mk sql)] }

/-- A parser whose statement list contains a null entry, to exercise the
null check of `ExtractStatementsFromSQL`. -/
def nullEntryParser : Parser :=
  { parseQuery := fun _ =>
      Except.ok [some (ParsedStatement.mk "SELECT 1;"), none,
                 some (ParsedStatement.mk "SELECT 2;")] }

/-! ## Helper lemmas -/

theorem filterMap_map_option {α β : Type} (l : List (Option α)) (f : α → β) :
    l.filterMap (fun s => s.map f) = (l.filterMap id).map f := by
  induction l with
  | nil => rfl
  | cons a t ih => cases a <;> simp [List.filterMap_cons, ih]

theorem filterMap_id_map_some {α : Type} (l : List α) : (l.map some).filterMap id = l := by
  induction l with
  | nil => rfl
  | cons a t ih => simp [List.filterMap_cons, ih]

theorem extract_error (P : Parser) (sql : String) (e : ParserException)
    (acc : List StatementResult) (h : P.parseQuery sql = Except.error e) :
    ExtractStatementsFromSQL P sql acc = acc := by
  simp [ExtractStatementsFromSQL, h]

theorem extract_ok (P : Parser) (sql : String) (ss : List (Option ParsedStatement))
    (acc : List StatementResult) (h : P.parseQuery sql = Except.ok ss) :
    ExtractStatementsFromSQL P sql acc =
      acc ++ (ss.filterMap id).map (fun st => StatementResult.mk st.ToString) := by
  simp [ExtractStatementsFromSQL, h, filterMap_map_option]

theorem extract_append (P : Parser) (sql : String) (acc : List StatementResult) :
    ExtractStatementsFromSQL P sql acc = acc ++ ExtractStatementsFromSQL P sql [] := by
  unfold ExtractStatementsFromSQL
  cases h : P.parseQuery sql <;> simp

theorem scalarRowList_eq (P : Parser) (child : List String) (q : String) :
    scalarRowList P child q = stmtsOf P q := by
  simp [scalarRowList, ParseStatementsScalarRow, stmtsOf, List.drop_left]

theorem runPulls_empty (P : Parser) (sql : String)
    (h : ExtractStatementsFromSQL P sql [] = []) :
    ∀ n, runPulls P sql n initState = (initState, [], n) := by
  intro n
  induction n with
  | zero => rfl
  | succ n ih =>
      have hstep : ParseStatementsFunction P sql initState = (initState, none) := by
        simp [ParseStatementsFunction, extractionTriggered, initState, h]
      have ht : extractionTriggered initState = true := rfl
      rw [runPulls]
      simp only [hstep, ht, if_true, Option.toList_none, List.nil_append, ih]
      simp [Nat.add_comm]

theorem stepFrom (P : Parser) (sql : String) (k : Nat) (ext : List StatementResult)
    (hne : ext ≠ []) :
    ParseStatementsFunction P sql ⟨k, ext⟩ =
      if h : k < ext.length then (⟨k + 1, ext⟩, some (ext.get ⟨k, h⟩).statement)
      else (⟨k, ext⟩, none) := by
  have ht : extractionTriggered ⟨k, ext⟩ = false := by
    simp [extractionTriggered, hne]
  simp [ParseStatementsFunction, ht]

theorem runPulls_steady_count (P : Parser) (sql : String) (ext : List StatementResult)
    (hne : ext ≠ []) :
    ∀ n k, (runPulls P sql n ⟨k, ext⟩).2.2 = 0 := by
  intro n
  induction n with
  | zero => intro k; rfl
  | succ n ih =>
      intro k
      have ht : extractionTriggered ⟨k, ext⟩ = false := by
        simp [extractionTriggered, hne]
      rw [runPulls]
      rw [stepFrom P sql k ext hne]
      by_cases h : k < ext.length <;> simp [h, ht, ih]

theorem runPulls_steady_out (P : Parser) (sql : String) (ext : List StatementResult)
    (hne : ext ≠ []) :
    ∀ n k, ext.length - k ≤ n →
      (runPulls P sql n ⟨k, ext⟩).2.1 = (ext.drop k).map (fun r => r.statement) := by
  intro n
  induction n with
  | zero =>
      intro k hk
      have hle : ext.length ≤ k := by omega
      simp [runPulls, List.drop_eq_nil_of_le hle]
  | succ n ih =>
      intro k hk
      rw [runPulls]
      rw [stepFrom P sql k ext hne]
      by_cases h : k < ext.length
      · have hrest := ih (k + 1) (by omega)
        simp only [h, dif_pos, Option.toList_some, hrest]
        rw [List.drop_eq_getElem_cons h]
        simp only [List.map_cons, List.singleton_append, List.get_eq_getElem]
      · have hle : ext.length ≤ k := by omega
        have hrest := ih k (by omega)
        simp [h, hrest, List.drop_eq_nil_of_le hle]

/-! ## Claim theorems -/

/-- Claim C1: for every input on which the external parser reports a
syntax error, statement extraction returns an empty result collection and
no error value reaches the output of the table function, the scalar
`parse_statements`, or `num_statements` (all are total and return empty /
zero outputs). -/
theorem parse_error_yields_empty (P : Parser) (sql : String) (e : ParserException)
    (h : P.parseQuery sql = Except.error e) :
    ExtractStatementsFromSQL P sql [] = [] ∧
    NumStatementsScalarRow P sql = 0 ∧
    (∀ child, scalarRowList P child sql = []) ∧
    (∀ n, (runPulls P sql n initState).2.1 = []) := by
  have hx : ExtractStatementsFromSQL P sql [] = [] := extract_error P sql e [] h
  refine ⟨hx, ?_, ?_, ?_⟩
  · simp [NumStatementsScalarRow, hx]
  · intro child
    rw [scalarRowList_eq]
    simp [stmtsOf, hx]
  · intro n
    simp [runPulls_empty P sql hx n]

/-- Witness for C1 at the spec's concrete malformed input. -/
theorem parse_error_yields_empty_witness :
    ExtractStatementsFromSQL errParser "SELEC * FRM;" [] = [] ∧
    NumStatementsScalarRow errParser "SELEC * FRM;" = 0 ∧
    scalarRowList errParser [] "SELEC * FRM;" = [] ∧
    (runPulls errParser "SELEC * FRM;" 3 initState).2.1 = [] := by
  have h := parse_error_yields_empty errParser "SELEC * FRM;"
      (ParserException.mk "syntax error") rfl
  exact ⟨h.1, h.2.1, h.2.2.1 [], h.2.2.2 3⟩

/-- Claim C2: for every input the external parser accepts, the Statement
Splitter returns exactly one StatementResult per top-level statement, in
source order, each holding the statement's canonical re-serialization
(the parser tree printed back to text). -/
theorem accepted_sql_one_result_per_statement (P : Parser) (sql : String)
    (ss : List ParsedStatement) (h : P.parseQuery sql = Except.ok (ss.map some)) :
    ExtractStatementsFromSQL P sql [] =
      ss.map (fun st => StatementResult.mk st.ToString) ∧
    (ExtractStatementsFromSQL P sql []).length = ss.length := by
  have hx := extract_ok P sql (ss.map some) [] h
  rw [filterMap_id_map_some] at hx
  simp [hx]

/-- Witness for C2: a parser accepting "SELECT 1; SELECT 2;" as two
statements yields exactly two StatementResult records in source order. -/
theorem accepted_sql_one_result_per_statement_witness :
    ExtractStatementsFromSQL twoStmtParser "SELECT 1; SELECT 2;" [] =
      [StatementResult.mk "SELECT 1;", StatementResult.mk "SELECT 2;"] ∧
    (ExtractStatementsFromSQL twoStmtParser "SELECT 1; SELECT 2;" []).length = 2 := by
  have h := accepted_sql_one_result_per_statement twoStmtParser "SELECT 1; SELECT 2;"
      [ParsedStatement.mk "SELECT 1;", ParsedStatement.mk "SELECT 2;"] (by rfl)
  exact ⟨h.1, h.2⟩

/-- Claim C3: for every input, `num_statements` equals the length of the
list returned by the scalar `parse_statements` on the same input. -/
theorem num_statements_eq_list_length (P : Parser) (child : List String) (query : String) :
    NumStatementsScalarRow P query = Int.ofNat (scalarRowList P child query).length := by
  rw [scalarRowList_eq]
  simp [NumStatementsScalarRow, stmtsOf]

/-- Claim C7: extraction is a deterministic, stateless function of its
input: two runs on the same text yield identical collections, and the
records appended are independent of whatever the results accumulator
already held (no state flows between invocations). -/
theorem extraction_deterministic (P : Parser) (sql : String) (acc : List StatementResult) :
    ExtractStatementsFromSQL P sql [] = ExtractStatementsFromSQL P sql [] ∧
    ExtractStatementsFromSQL P sql acc = acc ++ ExtractStatementsFromSQL P sql [] :=
  ⟨rfl, extract_append P sql acc⟩

/-- Claim C9: null entries in the parsed statement sequence are silently
skipped: on a successful parse the results are exactly the serializations
of the non-null entries, and the result count equals the number of
non-null parsed statements. -/
theorem null_statements_skipped (P : Parser) (sql : String)
    (ss : List (Option ParsedStatement)) (h : P.parseQuery sql = Except.ok ss) :
    ExtractStatementsFromSQL P sql [] =
      (ss.filterMap id).map (fun st => StatementResult.mk st.ToString) ∧
    (ExtractStatementsFromSQL P sql []).length = (ss.filterMap id).length := by
  have hx := extract_ok P sql ss [] h
  simp [hx]

/-- Witness for C9: a parsed sequence with a null entry between two
statements yields two results, the count of its non-null entries. -/
theorem null_statements_skipped_witness :
    ExtractStatementsFromSQL nullEntryParser "SELECT 1; ; SELECT 2;" [] =
      [StatementResult.mk "SELECT 1;", StatementResult.mk "SELECT 2;"] ∧
    (ExtractStatementsFromSQL nullEntryParser "SELECT 1; ; SELECT 2;" []).length = 2 := by
  have h := null_statements_skipped nullEntryParser "SELECT 1; ; SELECT 2;" _ rfl
  exact ⟨h.1, h.2⟩

theorem runPulls_first (P : Parser) (sql : String)
    (he : ExtractStatementsFromSQL P sql [] ≠ []) (n : Nat) :
    runPulls P sql (n + 1) initState =
      ((runPulls P sql n ⟨1, ExtractStatementsFromSQL P sql []⟩).1,
       ((ExtractStatementsFromSQL P sql []).get ⟨0, List.length_pos.mpr he⟩).statement ::
         (runPulls P sql n ⟨1, ExtractStatementsFromSQL P sql []⟩).2.1,
       1 + (runPulls P sql n ⟨1, ExtractStatementsFromSQL P sql []⟩).2.2) := by
  have h0 : 0 < (ExtractStatementsFromSQL P sql []).length := List.length_pos.mpr he
  have ht : extractionTriggered initState = true := rfl
  have hstep : ParseStatementsFunction P sql initState =
      (⟨1, ExtractStatementsFromSQL P sql []⟩,
       some ((ExtractStatementsFromSQL P sql []).get ⟨0, h0⟩).statement) := by
    simp [ParseStatementsFunction, extractionTriggered, initState, h0]
  rw [runPulls]
  simp only [hstep, ht, if_true, Option.toList_some, List.singleton_append]

/-- Claim C4 counterexample: on an input whose extraction yields zero
results (e.g. a syntax error), two pulls of one logical request run the
extraction branch twice — the guard `results.empty() && row == 0` stays
true, so extraction is not performed exactly once on the first pull. -/
theorem table_function_reextracts_on_empty :
    (runPulls errParser "SELEC * FRM;" 2 initState).2.2 = 2 ∧
    (runPulls errParser "SELEC * FRM;" 2 initState).2.2 ≠ 1 :=
  ⟨by rfl, by decide⟩

/-- Claim C4 (amended): on one logical request, when extraction yields at
least one result it runs exactly once — on the first pull — and all later
pulls are served from the memoized collection; when it yields zero
results, every pull re-runs the extraction (each pull re-satisfies the
guard), so over n pulls it runs n times. -/
theorem extraction_once_unless_empty (P : Parser) (sql : String) (n : Nat) (h : 1 ≤ n) :
    (runPulls P sql n initState).2.2 =
      if ExtractStatementsFromSQL P sql [] = [] then n else 1 := by
  by_cases he : ExtractStatementsFromSQL P sql [] = []
  · simp [runPulls_empty P sql he n, he]
  · obtain ⟨m, rfl⟩ : ∃ m, n = m + 1 := ⟨n - 1, by omega⟩
    rw [runPulls_first P sql he m]
    simp [runPulls_steady_count P sql _ he m 1, he]

/-- Witness for the amended C4: a request with two extracted statements
runs extraction once over three pulls. -/
theorem extraction_once_unless_empty_witness :
    (runPulls twoStmtParser "SELECT 1; SELECT 2;" 3 initState).2.2 = 1 := by
  have h := extraction_once_unless_empty twoStmtParser "SELECT 1; SELECT 2;" 3 (by decide)
  exact h.trans (by decide)

/-- Claim C5: the rows produced by the table function across the pulls of
one logical request equal, element for element and in order, the list the
scalar `parse_statements` returns for the same input. -/
theorem table_rows_eq_scalar_list (P : Parser) (sql : String) (child : List String)
    (n : Nat) (h : (ExtractStatementsFromSQL P sql []).length ≤ n) :
    (runPulls P sql n initState).2.1 = scalarRowList P child sql := by
  rw [scalarRowList_eq]
  by_cases he : ExtractStatementsFromSQL P sql [] = []
  · simp [runPulls_empty P sql he n, stmtsOf, he]
  · have h0 : 0 < (ExtractStatementsFromSQL P sql []).length := List.length_pos.mpr he
    obtain ⟨m, rfl⟩ : ∃ m, n = m + 1 := ⟨n - 1, by omega⟩
    rw [runPulls_first P sql he m]
    rw [runPulls_steady_out P sql _ he m 1 (by omega)]
    have hx : ExtractStatementsFromSQL P sql [] =
        (ExtractStatementsFromSQL P sql [])[0] ::
          (ExtractStatementsFromSQL P sql []).drop 1 := by
      conv_lhs => rw [← List.drop_zero (ExtractStatementsFromSQL P sql [])]
      exact List.drop_eq_getElem_cons h0
    simp only [stmtsOf]
    conv_rhs => rw [hx]
    simp only [List.map_cons, List.get_eq_getElem]

/-- Witness for C5 at a two-statement input with two pulls. -/
theorem table_rows_eq_scalar_list_witness :
    (runPulls twoStmtParser "SELECT 1; SELECT 2;" 2 initState).2.1 =
      scalarRowList twoStmtParser [] "SELECT 1; SELECT 2;" :=
  table_rows_eq_scalar_list twoStmtParser "SELECT 1; SELECT 2;" [] 2 (by decide)

/-- Claim C6: assuming the external parser's documented guarantee that
the canonical re-serialization of any statement it produced re-parses to
exactly one statement, every StatementResult produced by the Statement
Splitter holds text that re-parses successfully to exactly one top-level
statement. -/
theorem reparse_single_statement (P : Parser) (hP : CanonicalReparse P)
    (sql : String) (r : StatementResult)
    (hr : r ∈ ExtractStatementsFromSQL P sql []) :
    ∃ l, P.parseQuery r.statement = Except.ok l ∧ (l.filterMap id).length = 1 := by
  unfold ExtractStatementsFromSQL at hr
  cases hq : P.parseQuery sql with
  | error e => rw [hq] at hr; simp at hr
  | ok ss =>
      rw [hq] at hr
      simp only [List.nil_append] at hr
      obtain ⟨s, hs, hmap⟩ := List.mem_filterMap.mp hr
      cases s with
      | none => simp at hmap
      | some st =>
          have hrst : r = StatementResult.mk st.ToString := by
            simpa using hmap.symm
          obtain ⟨l, hl, h1⟩ := hP st ⟨sql, ss, hq, hs⟩
          exact ⟨l, by rw [hrst]; exact hl, h1⟩

/-- Witness for C6: a parser that accepts every input as one statement
satisfies the guarantee, and its extracted result re-parses to exactly
one statement. -/
theorem reparse_single_statement_witness :
    ∃ l, echoParser.parseQuery "SELECT 1" = Except.ok l ∧ (l.filterMap id).length = 1 := by
  have hP : CanonicalReparse echoParser := fun st _ =>
    ⟨[some (ParsedStatement.mk st.ToString)], rfl, rfl⟩
  exact reparse_single_statement echoParser hP "SELECT 1" (StatementResult.mk "SELECT 1")
    (by simp [ExtractStatementsFromSQL, echoParser])

/-- Claim C8 counterexample: in both record shapes, `table_name` is a
plain string field, and the record built for an unattributable predicate
carries the empty string there — it is not an explicit "no value"
distinguishable from the empty string. -/
theorem unattributable_table_name_is_empty_string :
    (unattributableWhereResult "a.x = b.y" "WHERE").table_name = "" ∧
    (unattributableDetailedWhereResult "x" "=" "1" "WHERE").table_name = "" :=
  ⟨rfl, rfl⟩

/-- Claim C8 (amended): for every predicate record whose table cannot be
unambiguously attributed, the `table_name` exposed at the boundary is the
empty string, in both WhereConditionResult and
DetailedWhereConditionResult — absence is encoded as the empty string,
not as a value distinguishable from it. -/
theorem unattributable_table_name_empty_amended
    (condition context column_name operator_type value : String) :
    (unattributableWhereResult condition context).table_name = "" ∧
    (unattributableDetailedWhereResult column_name operator_type value
        context).table_name = "" :=
  ⟨rfl, rfl⟩

theorem scalarStep_eq (P : Parser) (child : List String) (es : List ListEntry)
    (q : String) :
    scalarStep P (child, es) q =
      (child ++ stmtsOf P q, es ++ [ListEntry.mk child.length (stmtsOf P q).length]) := by
  simp [scalarStep, ParseStatementsScalarRow, stmtsOf]

theorem scalarStep_foldl (P : Parser) :
    ∀ (queries : List String) (child : List String) (es : List ListEntry),
      queries.foldl (scalarStep P) (child, es) =
        (child ++ queries.flatMap (stmtsOf P),
         es ++ scalarEntriesFrom P child.length queries) := by
  intro queries
  induction queries with
  | nil => intro child es; simp [scalarEntriesFrom]
  | cons q qs ih =>
      intro child es
      simp only [List.foldl_cons, scalarStep_eq, ih, scalarEntriesFrom]
      simp [List.append_assoc, stmtsOf]

theorem scalarEntriesFrom_get (P : Parser) :
    ∀ (qs : List String) (base i : Nat), i < qs.length →
      (scalarEntriesFrom P base qs)[i]? =
        some (ListEntry.mk (base + ((qs.take i).map (fun q => (stmtsOf P q).length)).sum)
          (stmtsOf P (qs.getD i "")).length) := by
  intro qs
  induction qs with
  | nil => intro base i h; simp at h
  | cons q t ih =>
      intro base i h
      cases i with
      | zero => simp [scalarEntriesFrom]
      | succ j =>
          have hj : j < t.length := by simpa using h
          simp only [scalarEntriesFrom, List.getElem?_cons_succ,
            ih (base + (stmtsOf P q).length) j hj,
            List.take_succ_cons, List.map_cons, List.sum_cons, List.getD_cons_succ]
          congr 2
          omega

theorem flatMap_slice (P : Parser) :
    ∀ (qs : List String) (i : Nat), i < qs.length →
      (((qs.flatMap (stmtsOf P)).drop
          (((qs.take i).map (fun q => (stmtsOf P q).length)).sum)).take
          (stmtsOf P (qs.getD i "")).length) = stmtsOf P (qs.getD i "") := by
  intro qs
  induction qs with
  | nil => intro i h; simp at h
  | cons q t ih =>
      intro i h
      cases i with
      | zero => simp [List.take_left]
      | succ j =>
          have hj : j < t.length := by simpa using h
          simp only [List.flatMap_cons, List.take_succ_cons, List.map_cons, List.sum_cons,
            List.getD_cons_succ, List.drop_append]
          exact ih j hj

theorem flatMap_length (P : Parser) :
    ∀ qs : List String,
      (qs.flatMap (stmtsOf P)).length = (qs.map (fun q => (stmtsOf P q).length)).sum := by
  intro qs
  induction qs with
  | nil => rfl
  | cons q t ih => simp [ih]

theorem scalarEntriesFrom_length (P : Parser) :
    ∀ (qs : List String) (base : Nat), (scalarEntriesFrom P base qs).length = qs.length := by
  intro qs
  induction qs with
  | nil => intro base; rfl
  | cons q t ih => intro base; simp [scalarEntriesFrom, ih]

/-- Claim C10: in a batch of the scalar `parse_statements`, the child
vector is the concatenation, in row order, of every row's statement
texts; each row's list entry has offset equal to the child-vector size
before that row was processed and length equal to that row's statement
count, and the slice it describes is exactly that row's statements (so
slices of distinct rows are disjoint), while the child vector grows by
exactly the total number of statements in the batch. -/
theorem scalar_batch_slices (P : Parser) (queries : List String) (i : Nat)
    (h : i < queries.length) :
    (ParseStatementsScalarFunction P queries).1 = queries.flatMap (stmtsOf P) ∧
    (ParseStatementsScalarFunction P queries).1.length =
      (queries.map (fun q => (stmtsOf P q).length)).sum ∧
    (ParseStatementsScalarFunction P queries).2.length = queries.length ∧
    (ParseStatementsScalarFunction P queries).2[i]? =
      some (ListEntry.mk (((queries.take i).map (fun q => (stmtsOf P q).length)).sum)
        (stmtsOf P (queries.getD i "")).length) ∧
    (((ParseStatementsScalarFunction P queries).1.drop
        (((queries.take i).map (fun q => (stmtsOf P q).length)).sum)).take
        (stmtsOf P (queries.getD i "")).length) = stmtsOf P (queries.getD i "") := by
  have hf : ParseStatementsScalarFunction P queries =
      (queries.flatMap (stmtsOf P), scalarEntriesFrom P 0 queries) := by
    unfold ParseStatementsScalarFunction
    rw [scalarStep_foldl P queries [] []]
    simp
  refine ⟨by rw [hf], ?_, ?_, ?_, ?_⟩
  · rw [hf]
    exact flatMap_length P queries
  · rw [hf]
    exact scalarEntriesFrom_length P queries 0
  · rw [hf]
    simpa using scalarEntriesFrom_get P queries 0 i h
  · rw [hf]
    exact flatMap_slice P queries i h

/-- Witness for C10: a two-row batch where the first row has two
statements and the second is malformed; row 0's entry is (0, 2) and the
child vector holds exactly the two statement texts. -/
theorem scalar_batch_slices_witness :
    (ParseStatementsScalarFunction twoStmtParser ["SELECT 1; SELECT 2;", "bad"]).2[0]? =
      some (ListEntry.mk 0 2) ∧
    (ParseStatementsScalarFunction twoStmtParser ["SELECT 1; SELECT 2;", "bad"]).1 =
      ["SELECT 1;", "SELECT 2;"] := by
  have h := scalar_batch_slices twoStmtParser ["SELECT 1; SELECT 2;", "bad"] 0 (by decide)
  exact ⟨(h.2.2.2.1).trans (by decide), h.1.trans (by decide)⟩

end ParserTools
